import Mathlib

/-!
Verification of `src/server/pkg/ppsutil/util.go` (job/pipeline state
coordination utilities).  The Go code is shallowly embedded: the etcd
collections become finite maps `String → Option record`, protobuf records
become structures, the `pps.JobState` / `pps.PipelineState` enums become
`Int` constants (they are `int32` on the wire and are used as `int32` map
keys in `JobCounts`), and `time.Now()` becomes an explicit `now` argument.
-/

namespace PPS

/-! ## Job and pipeline state enums

Modelled from the spec: the `pps.JobState` / `pps.PipelineState` protobuf
enums live in the client package, not under `src/`.  Values follow the
declaration order given in the spec's data model (job states
STARTING, RUNNING, FAILURE, SUCCESS, KILLED, MERGING; pipeline states
STARTING, RUNNING, RESTARTING, FAILURE, PAUSED, STANDBY).  The enums are
open (`int32`), so states are embedded as `Int`, not as a closed inductive:
`IsTerminal` in the source panics on values outside the six job states. -/

def JOB_STARTING : Int := 0
def JOB_RUNNING : Int := 1
def JOB_FAILURE : Int := 2
def JOB_SUCCESS : Int := 3
def JOB_KILLED : Int := 4
def JOB_MERGING : Int := 5

def PIPELINE_FAILURE : Int := 3

/-- The six declared values of the `pps.JobState` enum. -/
def recognizedJobState (s : Int) : Prop :=
  s = 0 ∨ s = 1 ∨ s = 2 ∨ s = 3 ∨ s = 4 ∨ s = 5

instance (s : Int) : Decidable (recognizedJobState s) := by
  unfold recognizedJobState; infer_instance

/-! ## Association-list maps

Go maps (`map[int32]int32` for `JobCounts`, `map[string]*pfs.Commit` for
the provenance index) are embedded as association lists with
first-occurrence lookup and replace-or-append assignment; a missing
`int32` key reads as the zero value, as in Go. -/

def lookupA {κ ν : Type} [DecidableEq κ] : List (κ × ν) → κ → Option ν
  | [], _ => none
  | p :: rest, k => if p.1 = k then some p.2 else lookupA rest k

def setA {κ ν : Type} [DecidableEq κ] : List (κ × ν) → κ → ν → List (κ × ν)
  | [], k, v => [(k, v)]
  | p :: rest, k, v => if p.1 = k then (k, v) :: rest else p :: setA rest k v

/-- Go map read `m[k]` on an integer-valued map: zero for a missing key. -/
def lookupCount (m : List (Int × Int)) (k : Int) : Int :=
  (lookupA m k).getD 0

/-- Sum of all entries of a `JobCounts` map. -/
def sumCounts (m : List (Int × Int)) : Int :=
  (m.map fun p => p.2).sum

/-! ## Records

`pps.EtcdJobInfo` and `pps.EtcdPipelineInfo` restricted to the fields this
file reads or writes (the remaining protobuf fields are never touched by
the embedded operations and are carried unchanged by `{ r with ... }`
updates, so omitting them loses nothing). -/

structure EtcdJobInfo where
  jobID : String
  pipelineName : String
  state : Int
  reason : String
  started : Option Int
  finished : Option Int
deriving DecidableEq

structure EtcdPipelineInfo where
  state : Int
  reason : String
  jobCounts : Option (List (Int × Int))
  lastJobState : Int
deriving DecidableEq

/-! ## Stores

The two etcd collections handed to `UpdateJobState` (and the pipelines
collection read inside `FailPipeline`'s STM closure). `Get` on a missing
key is `none` (the collection's not-found error); `Put` is a pointwise
update. -/

abbrev PStore : Type := String → Option EtcdPipelineInfo

abbrev JStore : Type := String → Option EtcdJobInfo

def putP (s : PStore) (k : String) (v : EtcdPipelineInfo) : PStore :=
  fun q => if q = k then some v else s q

def putJ (s : JStore) (k : String) (v : EtcdJobInfo) : JStore :=
  fun q => if q = k then some v else s q

inductive UpdateErr where
  | illegalTransition
  | notFound
deriving DecidableEq

/-- Outcome of `UpdateJobState`.  `err` and `panicked` carry the stores as
the function leaves them (an error is returned before any write; the
`IsTerminal` panic happens after the pipeline `Put` but before the job
`Put`). -/
inductive UpdateResult where
  | ok (pipelines : PStore) (jobs : JStore) (jobPtr : EtcdJobInfo)
  | err (e : UpdateErr) (pipelines : PStore) (jobs : JStore)
  | panicked (pipelines : PStore) (jobs : JStore)

/-- `IsTerminal` from the source: `some true` for SUCCESS/FAILURE/KILLED,
`some false` for STARTING/RUNNING/MERGING, and `none` for the `default:`
branch, which panics. -/
def IsTerminal (state : Int) : Option Bool :=
  if state = JOB_SUCCESS ∨ state = JOB_FAILURE ∨ state = JOB_KILLED then some true
  else if state = JOB_STARTING ∨ state = JOB_RUNNING ∨ state = JOB_MERGING then some false
  else none

/-- The `JobCounts` update block of `UpdateJobState`: decrement the old
state's count when it is nonzero, then increment the new state's count. -/
def bumpCounts (jc : List (Int × Int)) (oldState newState : Int) : List (Int × Int) :=
  let jc1 :=
    if lookupCount jc oldState ≠ 0 then
      setA jc oldState (lookupCount jc oldState - 1)
    else jc
  setA jc1 newState (lookupCount jc1 newState + 1)

/-- `UpdateJobState` from the source.  `types.TimestampProto(time.Now())`
is embedded as the explicit `now` value (the conversion error branch is
unreachable for clock readings); a nil `JobCounts` map reads as `[]` via
`Option.getD` (the source installs an empty map before using it). -/
def UpdateJobState (pipelines : PStore) (jobs : JStore) (jobPtr : EtcdJobInfo)
    (state : Int) (reason : String) (now : Int) : UpdateResult :=
  if jobPtr.state = JOB_FAILURE then
    .err .illegalTransition pipelines jobs
  else
    match pipelines jobPtr.pipelineName with
    | none => .err .notFound pipelines jobs
    | some pipelinePtr =>
      let pipelinePtr' : EtcdPipelineInfo :=
        { pipelinePtr with
          jobCounts := some (bumpCounts (pipelinePtr.jobCounts.getD []) jobPtr.state state)
          lastJobState := state }
      let pipelines' := putP pipelines jobPtr.pipelineName pipelinePtr'
      if state = JOB_STARTING then
        let jobPtr' := { jobPtr with started := some now, state := state, reason := reason }
        .ok pipelines' (putJ jobs jobPtr.jobID jobPtr') jobPtr'
      else
        match IsTerminal state with
        | none => .panicked pipelines' jobs
        | some true =>
          let jobPtr' := { jobPtr with finished := some now, state := state, reason := reason }
          .ok pipelines' (putJ jobs jobPtr.jobID jobPtr') jobPtr'
        | some false =>
          let jobPtr' := { jobPtr with state := state, reason := reason }
          .ok pipelines' (putJ jobs jobPtr.jobID jobPtr') jobPtr'

/-- `FailPipeline` from the source: the STM closure reads the pipeline
record (propagating the collection's not-found error), sets
`State = PIPELINE_FAILURE` and `Reason`, and writes it back.  The jobs
collection is carried to make the frame condition statable; the closure
never touches it. -/
def FailPipeline (pipelines : PStore) (jobs : JStore) (pipelineName reason : String) :
    Except UpdateErr (PStore × JStore) :=
  match pipelines pipelineName with
  | none => .error .notFound
  | some pipelinePtr =>
    .ok (putP pipelines pipelineName
          { pipelinePtr with state := PIPELINE_FAILURE, reason := reason }, jobs)

/-! ## Parallelism resolution -/

/-- `pps.ParallelismSpec`: `Constant` is `uint64` (embedded as `Nat`),
`Coefficient` is `float64` (embedded as `ℚ`; the source only multiplies
it by a node count, floors and compares, all exact on the clock values
involved). -/
structure ParallelismSpec where
  constant : Nat
  coefficient : ℚ
deriving DecidableEq

inductive WorkersErr where
  | clusterUnavailable
  | invalidParallelismSpec
deriving DecidableEq

/-- `getNumNodes` from the source: the k8s node list is the Cluster
Inventory collaborator, embedded as `none` when the API call fails and
`some items` otherwise; an unreachable cluster and an empty node list
both produce the cluster-unavailable error. -/
def getNumNodes (nodeItems : Option (List Unit)) : Except WorkersErr Nat :=
  match nodeItems with
  | none => .error .clusterUnavailable
  | some items =>
    if items.length = 0 then .error .clusterUnavailable
    else .ok items.length

/-- `GetExpectedNumWorkers` from the source.  `int(math.Max(result, 1))`
with `result = math.Floor(coefficient * numNodes)` becomes
`Int.toNat (max (Int.floor ...) 1)` (the max is at least 1, so the final
integer conversion is exact). -/
def GetExpectedNumWorkers (nodeItems : Option (List Unit))
    (spec : Option ParallelismSpec) : Except WorkersErr Nat :=
  match spec with
  | none => .ok 1
  | some sp =>
    if sp.constant = 0 ∧ sp.coefficient = 0 then .ok 1
    else if 0 < sp.constant ∧ sp.coefficient = 0 then .ok sp.constant
    else if sp.constant = 0 ∧ 0 < sp.coefficient then
      match getNumNodes nodeItems with
      | .error e => .error e
      | .ok numNodes => .ok (Int.toNat (max (Int.floor (sp.coefficient * numNodes)) 1))
    else .error .invalidParallelismSpec

/-! ## Resource list resolution

`getResourceListFromSpec` builds a `v1.ResourceList`
(`map[v1.ResourceName]resource.Quantity`); quantities are embedded as
`Int` (the source only parses, stores and `Cmp`-compares them), the map
as a string-keyed function.  `resource.ParseQuantity` and the
`fmt.Sprintf` formatting of the float cpu / integer gpu fields are
external capabilities, passed as parameters. -/

structure GPUSpec where
  number : Int
  type : String
deriving DecidableEq

structure ResourceSpec where
  cpu : ℚ
  memory : String
  disk : String
  gpu : Option GPUSpec
deriving DecidableEq

abbrev ResourceList : Type := String → Option Int

/-- Go map assignment `result[k] = v`. -/
def setR (l : ResourceList) (k : String) (v : Int) : ResourceList :=
  fun q => if q = k then some v else l q

/-- `getResourceListFromSpec` from the source.  Each parse failure is
logged and skipped; a failed memory parse leaves `memQuantity` at the Go
zero value `0`, which the cache-size comparison then uses; the gpu entry
is written last under the caller-chosen `gpu.type` key.  The function's
single return is `(result, nil)`. -/
def getResourceListFromSpec (parseQuantity : String → Option Int)
    (formatFloat : ℚ → String) (formatInt : Int → String)
    (resources : ResourceSpec) (cacheSize : String) : Except String ResourceList :=
  let result0 : ResourceList := fun _ => none
  let cpuStr := formatFloat resources.cpu
  let result1 :=
    match parseQuantity cpuStr with
    | none => result0
    | some cpuQuantity => setR result0 "cpu" cpuQuantity
  let memParsed := parseQuantity resources.memory
  let memQuantity := memParsed.getD 0
  let result2 :=
    match memParsed with
    | none => result1
    | some q => setR result1 "memory" q
  let result3 :=
    if resources.disk ≠ "" then
      match parseQuantity resources.disk with
      | none => result2
      | some diskQuantity => setR result2 "ephemeral-storage" diskQuantity
    else result2
  let result4 :=
    match parseQuantity cacheSize with
    | none => result3
    | some cacheQuantity =>
      if memQuantity < cacheQuantity then setR result3 "memory" cacheQuantity
      else result3
  let result5 :=
    match resources.gpu with
    | none => result4
    | some gpu =>
      match parseQuantity (formatInt gpu.number) with
      | none => result4
      | some gpuQuantity => setR result4 gpu.type gpuQuantity
  .ok result5

/-- True when the gpu field parses and writes the key `k`. -/
def gpuHits (parseQuantity : String → Option Int) (formatInt : Int → String)
    (resources : ResourceSpec) (k : String) : Bool :=
  match resources.gpu with
  | none => false
  | some gpu => (parseQuantity (formatInt gpu.number)).isSome && (gpu.type == k)

/-- True when the cache-size sanity rule fires and writes the memory key. -/
def cacheHits (parseQuantity : String → Option Int) (resources : ResourceSpec)
    (cacheSize : String) : Bool :=
  match parseQuantity cacheSize with
  | none => false
  | some cacheQuantity =>
    decide ((parseQuantity resources.memory).getD 0 < cacheQuantity)

def getOk {ε α : Type} : Except ε α → Option α
  | .ok a => some a
  | .error _ => none

/-- A concrete quantity parser for witnesses/counterexamples: accepts
exactly the nonempty all-digit strings (as `resource.ParseQuantity` does
on such inputs). -/
def parseQ0 (s : String) : Option Int :=
  if s.data ≠ [] ∧ s.data.all (fun c => c.isDigit) then
    some (s.data.foldl (fun acc c => acc * 10 + ((c.toNat : Int) - 48)) 0)
  else none

/-- Concrete float formatting for witnesses: decimal numerator (agrees
with `%f`-then-parse behaviour on the small integral values used). -/
def fmtF0 (q : ℚ) : String := toString q.num

/-- Concrete `%d` formatting for witnesses. -/
def fmtI0 (i : Int) : String := toString i

/-- Memory string unparseable, gpu typed (ab)used as the "memory" key. -/
def rspecMemGpu : ResourceSpec :=
  { cpu := 1, memory := "bogus", disk := "", gpu := some { number := 7, type := "memory" } }

/-- Memory 1, cache 3, gpu typed as the "memory" key. -/
def rspecCacheGpu : ResourceSpec :=
  { cpu := 1, memory := "1", disk := "", gpu := some { number := 7, type := "memory" } }

/-- Memory string unparseable, no gpu. -/
def rspecPlain : ResourceSpec :=
  { cpu := 1, memory := "bogus", disk := "", gpu := none }

/-- Memory 1, no gpu. -/
def rspecCache : ResourceSpec :=
  { cpu := 1, memory := "1", disk := "", gpu := none }

/-! ## Provenance input resolution -/

structure Repo where
  name : String
deriving DecidableEq

structure Commit where
  repo : Repo
  id : String
deriving DecidableEq

structure Branch where
  name : String
deriving DecidableEq

/-- One entry of `outputCommitInfo.Provenance`: the upstream commit and
the branch it was read from. -/
structure CommitProvenance where
  commit : Commit
  branch : Branch
deriving DecidableEq

/-- The index key `path.Join(repo, branch)`.  For the slash-free,
nonempty repo and branch names used as identifiers, `path.Join` is plain
concatenation with a separating slash. -/
def provKey (repo branch : String) : String := repo ++ "/" ++ branch

/-- Modelled from the spec: `pps.Input` (client package, not under
`src/`) is a tree whose leaves are the three data-source variants — a
filesystem-branch (pfs) leaf, a time-triggered (cron) leaf and an
external-version-control (git) leaf, each identifying its source by a
`(repository, branch)` pair and carrying a `commit` field filled by
resolution — combined by the structural operators cross and union, which
`pps.VisitInput` recurses through. -/
inductive Input where
  | pfs (repo branch commit : String)
  | cron (repo branch commit : String)
  | git (name branch commit : String)
  | cross (inputs : List Input)
  | union (inputs : List Input)

mutual

/-- The visitation body of `JobInput`: on each leaf, look up the leaf's
key in the provenance index and set the leaf's commit to the found
commit's id, leaving it unchanged on a miss; pfs leaves use
`(repo, branch)`, cron leaves use `(repo, "master")`, git leaves use
`(name, branch)`. -/
def resolveInput (m : List (String × Commit)) : Input → Input
  | .pfs repo branch commit =>
    match lookupA m (provKey repo branch) with
    | some c => .pfs repo branch c.id
    | none => .pfs repo branch commit
  | .cron repo branch commit =>
    match lookupA m (provKey repo "master") with
    | some c => .cron repo branch c.id
    | none => .cron repo branch commit
  | .git name branch commit =>
    match lookupA m (provKey name branch) with
    | some c => .git name branch c.id
    | none => .git name branch commit
  | .cross inputs => .cross (resolveInputs m inputs)
  | .union inputs => .union (resolveInputs m inputs)

def resolveInputs (m : List (String × Commit)) : List Input → List Input
  | [] => []
  | i :: is => resolveInput m i :: resolveInputs m is

end

/-- The `branchToCommit` index of `JobInput`: fold the provenance list
into a map keyed by `path.Join(prov.Commit.Repo.Name, prov.Branch.Name)`
(later entries overwrite earlier ones, as Go map assignment does). -/
def branchToCommit (provenance : List CommitProvenance) : List (String × Commit) :=
  provenance.foldl
    (fun m prov => setA m (provKey prov.commit.repo.name prov.branch.name) prov.commit) []

/-- `JobInput` from the source: build the provenance index, deep-copy the
pipeline's input tree (`proto.Clone`; a no-op on immutable values) and
visit every node, resolving each leaf's commit. -/
def JobInput (input : Input) (provenance : List CommitProvenance) : Input :=
  resolveInput (branchToCommit provenance) input

/-- Reference reading of the index used to state C6: the last provenance
entry whose joined key matches (Go map assignment is last-write-wins). -/
def provLookup (provenance : List CommitProvenance) (k : String) : Option Commit :=
  (provenance.reverse.find? fun prov =>
      decide (provKey prov.commit.repo.name prov.branch.name = k)).map
    (fun prov => prov.commit)

/-! ## Result extractors and concrete fixtures (for closed evaluations) -/

/-- The job record written by a successful `UpdateJobState`. -/
def jobAfter : UpdateResult → Option EtcdJobInfo
  | .ok _ _ j => some j
  | _ => none

/-- The `jobCounts` of a named pipeline after a successful `UpdateJobState`. -/
def countsAfter (res : UpdateResult) (name : String) : Option (List (Int × Int)) :=
  match res with
  | .ok ps _ _ =>
    match ps name with
    | some p => p.jobCounts
    | none => none
  | _ => none

/-- True exactly when the result is the `IsTerminal` panic. -/
def didPanic : UpdateResult → Bool
  | .panicked _ _ => true
  | _ => false

def pipeline0 : EtcdPipelineInfo :=
  { state := 1, reason := "", jobCounts := some [], lastJobState := 0 }

def pipeline1 : EtcdPipelineInfo :=
  { state := 1, reason := "", jobCounts := some [(0, 2)], lastJobState := 0 }

def pipelineNilCounts : EtcdPipelineInfo :=
  { state := 1, reason := "", jobCounts := none, lastJobState := 0 }

def pstore0 : PStore := fun n => if n = "p" then some pipeline0 else none

def pstore1 : PStore := fun n => if n = "p" then some pipeline1 else none

def pstoreNil : PStore := fun n => if n = "p" then some pipelineNilCounts else none

def jstore0 : JStore := fun _ => none

def jobStarting0 : EtcdJobInfo :=
  { jobID := "j", pipelineName := "p", state := JOB_STARTING, reason := "",
    started := none, finished := none }

def jobSuccess0 : EtcdJobInfo :=
  { jobID := "j", pipelineName := "p", state := JOB_SUCCESS, reason := "",
    started := some 1, finished := some 5 }

/-! ## Theorems -/

/-- Claim C1: `UpdateJobState` fails with `IllegalTransition` if and only
if the job's current state is `JOB_FAILURE`; on that failure the stores
are returned untouched (the rejection precedes every read and write), and
for every other current state — terminal `SUCCESS`/`KILLED` included — the
operation is never rejected with `IllegalTransition`. -/
theorem updateJobState_illegalTransition_iff_failure
    (ps : PStore) (js : JStore) (j : EtcdJobInfo) (s : Int) (r : String) (now : Int) :
    (j.state = JOB_FAILURE →
      UpdateJobState ps js j s r now = .err .illegalTransition ps js) ∧
    (j.state ≠ JOB_FAILURE → ∀ ps' js',
      UpdateJobState ps js j s r now ≠ .err .illegalTransition ps' js') := by
  constructor
  · intro h
    simp [UpdateJobState, h]
  · intro h ps' js'
    unfold UpdateJobState
    rw [if_neg h]
    cases hp : ps j.pipelineName with
    | none => simp
    | some p =>
      simp only
      split
      · simp
      · split <;> simp

/-! ### Association-list lemmas -/

theorem lookupA_setA {κ ν : Type} [DecidableEq κ] (m : List (κ × ν)) (k q : κ) (v : ν) :
    lookupA (setA m k v) q = if q = k then some v else lookupA m q := by
  induction m with
  | nil =>
    simp only [setA, lookupA]
    by_cases h : q = k
    · simp [h]
    · have hk : ¬k = q := fun hh => h hh.symm
      simp [h, hk]
  | cons p rest ih =>
    by_cases hpk : p.1 = k
    · simp only [setA, if_pos hpk, lookupA]
      by_cases hqk : q = k
      · simp [hqk]
      · have hkq : ¬k = q := fun hh => hqk hh.symm
        have hpq : ¬p.1 = q := fun hh => hqk (hpk.symm.trans hh).symm
        simp [hqk, hkq, hpq]
    · simp only [setA, if_neg hpk, lookupA, ih]
      by_cases hpq : p.1 = q
      · have hqk : ¬q = k := fun hh => hpk (hpq.trans hh)
        simp [hpq, hqk]
      · simp [hpq]

theorem lookupCount_setA (m : List (Int × Int)) (k q v : Int) :
    lookupCount (setA m k v) q = if q = k then v else lookupCount m q := by
  unfold lookupCount
  rw [lookupA_setA]
  split <;> simp

theorem sumCounts_setA (m : List (Int × Int)) (k v : Int) :
    sumCounts (setA m k v) = sumCounts m + v - lookupCount m k := by
  induction m with
  | nil => simp [setA, sumCounts, lookupCount, lookupA]
  | cons p rest ih =>
    by_cases hpk : p.1 = k
    · simp only [setA, if_pos hpk, sumCounts, List.map_cons, List.sum_cons,
        lookupCount, lookupA, hpk, if_pos]
      simp [sumCounts]
      ring
    · simp only [setA, if_neg hpk, sumCounts, List.map_cons, List.sum_cons,
        lookupCount, lookupA, if_neg hpk]
      have := ih
      simp only [sumCounts, lookupCount] at this
      rw [this]
      ring

/-- Entrywise effect of the `JobCounts` update block: the new state's
count gains one, the old state's count loses one exactly when it was
nonzero, every other entry is unchanged. -/
theorem lookupCount_bumpCounts (jc : List (Int × Int)) (oldState newState k : Int) :
    lookupCount (bumpCounts jc oldState newState) k =
      lookupCount jc k + (if k = newState then 1 else 0)
        - (if k = oldState ∧ lookupCount jc oldState ≠ 0 then 1 else 0) := by
  simp only [bumpCounts]
  split
  · next h =>
    simp only [lookupCount_setA]
    by_cases hkn : k = newState
    · subst hkn
      by_cases hko : k = oldState
      · subst hko
        simp [h]
      · simp [hko, h]
    · by_cases hko : k = oldState
      · subst hko
        simp [hkn, h]
      · simp [hkn, hko]
  · next h =>
    have h0 : lookupCount jc oldState = 0 := not_not.mp h
    simp only [lookupCount_setA]
    by_cases hkn : k = newState
    · subst hkn
      simp [h0]
    · simp [hkn, h0]

/-- Sum effect of the `JobCounts` update block: the sum of all entries is
unchanged when the old state's count is nonzero and grows by one when the
decrement is skipped because that count is zero. -/
theorem sumCounts_bumpCounts (jc : List (Int × Int)) (oldState newState : Int) :
    sumCounts (bumpCounts jc oldState newState) =
      if lookupCount jc oldState = 0 then sumCounts jc + 1 else sumCounts jc := by
  simp only [bumpCounts]
  split
  · next h =>
    simp only [sumCounts_setA, lookupCount_setA]
    by_cases hno : newState = oldState
    all_goals simp [hno]
    all_goals omega
  · next h =>
    simp only [sumCounts_setA]
    omega

/-- Witness for C1 at concrete inputs: a job already in `JOB_FAILURE` is
rejected with the stores unchanged, and a job in `JOB_SUCCESS` is not
rejected with `IllegalTransition`. -/
theorem updateJobState_illegalTransition_iff_failure_witness :
    (UpdateJobState (fun _ => none) (fun _ => none)
        { jobID := "j", pipelineName := "p", state := JOB_FAILURE, reason := "",
          started := none, finished := none } JOB_RUNNING "r" 0
      = .err .illegalTransition (fun _ => none) (fun _ => none)) ∧
    (∀ ps' js', UpdateJobState (fun _ => none) (fun _ => none)
        { jobID := "j", pipelineName := "p", state := JOB_SUCCESS, reason := "",
          started := none, finished := none } JOB_RUNNING "r" 0
      ≠ .err .illegalTransition ps' js') := by
  constructor
  · exact (updateJobState_illegalTransition_iff_failure _ _ _ _ _ _).1 (by decide)
  · exact (updateJobState_illegalTransition_iff_failure _ _ _ _ _ _).2 (by decide)

/-- Shape of a committed `UpdateJobState`: for a job not in `JOB_FAILURE`,
a present pipeline record and a recognized new state, the call succeeds;
the pipeline record gets the bumped counts and `lastJobState`, and the
written job record carries the timestamp updates of the source's
`STARTING` / terminal branches. -/
theorem updateJobState_ok_shape
    (ps : PStore) (js : JStore) (j : EtcdJobInfo) (s : Int) (r : String) (now : Int)
    (p : EtcdPipelineInfo)
    (h1 : j.state ≠ JOB_FAILURE) (h2 : ps j.pipelineName = some p)
    (h3 : recognizedJobState s) :
    ∃ j', UpdateJobState ps js j s r now =
        .ok (putP ps j.pipelineName
              { p with jobCounts := some (bumpCounts (p.jobCounts.getD []) j.state s),
                       lastJobState := s })
            (putJ js j.jobID j') j' ∧
      j'.started = (if s = JOB_STARTING then some now else j.started) ∧
      j'.finished = (if s = JOB_SUCCESS ∨ s = JOB_FAILURE ∨ s = JOB_KILLED
        then some now else j.finished) ∧
      j'.state = s ∧ j'.reason = r ∧
      j'.jobID = j.jobID ∧ j'.pipelineName = j.pipelineName := by
  have h1 : ¬j.state = 2 := by simpa [JOB_FAILURE] using h1
  rcases h3 with h|h|h|h|h|h <;> subst h
  · refine ⟨{ j with started := some now, state := 0, reason := r },
      ?_, ?_, ?_, rfl, rfl, rfl, rfl⟩ <;>
      simp [UpdateJobState, h1, h2, IsTerminal, JOB_STARTING, JOB_RUNNING, JOB_FAILURE,
        JOB_SUCCESS, JOB_KILLED, JOB_MERGING]
  · refine ⟨{ j with state := 1, reason := r }, ?_, ?_, ?_, rfl, rfl, rfl, rfl⟩ <;>
      simp [UpdateJobState, h1, h2, IsTerminal, JOB_STARTING, JOB_RUNNING, JOB_FAILURE,
        JOB_SUCCESS, JOB_KILLED, JOB_MERGING]
  · refine ⟨{ j with finished := some now, state := 2, reason := r },
      ?_, ?_, ?_, rfl, rfl, rfl, rfl⟩ <;>
      simp [UpdateJobState, h1, h2, IsTerminal, JOB_STARTING, JOB_RUNNING, JOB_FAILURE,
        JOB_SUCCESS, JOB_KILLED, JOB_MERGING]
  · refine ⟨{ j with finished := some now, state := 3, reason := r },
      ?_, ?_, ?_, rfl, rfl, rfl, rfl⟩ <;>
      simp [UpdateJobState, h1, h2, IsTerminal, JOB_STARTING, JOB_RUNNING, JOB_FAILURE,
        JOB_SUCCESS, JOB_KILLED, JOB_MERGING]
  · refine ⟨{ j with finished := some now, state := 4, reason := r },
      ?_, ?_, ?_, rfl, rfl, rfl, rfl⟩ <;>
      simp [UpdateJobState, h1, h2, IsTerminal, JOB_STARTING, JOB_RUNNING, JOB_FAILURE,
        JOB_SUCCESS, JOB_KILLED, JOB_MERGING]
  · refine ⟨{ j with state := 5, reason := r }, ?_, ?_, ?_, rfl, rfl, rfl, rfl⟩ <;>
      simp [UpdateJobState, h1, h2, IsTerminal, JOB_STARTING, JOB_RUNNING, JOB_FAILURE,
        JOB_SUCCESS, JOB_KILLED, JOB_MERGING]

/-- Counterexample to claim C2 as stated: with a pipeline whose
`jobCounts` map is empty (every count zero) and a non-failure job in
`JOB_STARTING`, a committed `UpdateJobState` to `JOB_RUNNING` skips the
floored decrement and performs the increment, so the sum of all
`jobCounts` entries grows from 0 to 1 — it is not unchanged. -/
theorem updateJobState_sum_changed_cx :
    countsAfter (UpdateJobState pstore0 jstore0 jobStarting0 JOB_RUNNING "" 0) "p"
      = some [(JOB_RUNNING, 1)] ∧
    pipeline0.jobCounts = some [] ∧
    sumCounts [] = 0 ∧ sumCounts [(JOB_RUNNING, 1)] = 1 ∧
    jobStarting0.state ≠ JOB_FAILURE ∧ (1 : Int) ≠ (0 : Int) := by
  decide

/-- Claim C2 (amended): for every job `j` not in `JOB_FAILURE` and every
recognized `newState`, a committed `UpdateJobState(j, newState, r)`
changes the pipeline's `jobCounts` entrywise by increasing
`jobCounts[newState]` by exactly 1 and decreasing `jobCounts[oldState]`
by exactly 1 when that count is nonzero (the decrement is skipped when it
is zero); the sum of all `jobCounts` entries is unchanged when
`jobCounts[oldState]` is nonzero and increases by exactly 1 when it is
zero. -/
theorem updateJobState_counts_amended
    (ps : PStore) (js : JStore) (j : EtcdJobInfo) (s : Int) (r : String) (now : Int)
    (p : EtcdPipelineInfo)
    (h1 : j.state ≠ JOB_FAILURE) (h2 : ps j.pipelineName = some p)
    (h3 : recognizedJobState s) :
    ∃ ps' js' j', UpdateJobState ps js j s r now = .ok ps' js' j' ∧
      ∃ p', ps' j.pipelineName = some p' ∧
        ∃ jc', p'.jobCounts = some jc' ∧
          (∀ k, lookupCount jc' k =
            lookupCount (p.jobCounts.getD []) k + (if k = s then 1 else 0)
              - (if k = j.state ∧ lookupCount (p.jobCounts.getD []) j.state ≠ 0
                 then 1 else 0)) ∧
          sumCounts jc' = (if lookupCount (p.jobCounts.getD []) j.state = 0
            then sumCounts (p.jobCounts.getD []) + 1
            else sumCounts (p.jobCounts.getD [])) := by
  obtain ⟨j', heq, -⟩ := updateJobState_ok_shape ps js j s r now p h1 h2 h3
  refine ⟨_, _, j', heq,
    { p with jobCounts := some (bumpCounts (p.jobCounts.getD []) j.state s),
             lastJobState := s },
    by simp [putP],
    bumpCounts (p.jobCounts.getD []) j.state s, rfl, ?_, ?_⟩
  · intro k
    exact lookupCount_bumpCounts _ _ _ _
  · exact sumCounts_bumpCounts _ _ _

/-- Witness for the amended C2 at concrete inputs: pipeline with
`jobCounts = [(STARTING, 2)]`, job in `STARTING`, transition to
`RUNNING`. -/
theorem updateJobState_counts_amended_witness :
    jobStarting0.state ≠ JOB_FAILURE ∧
    pstore1 jobStarting0.pipelineName = some pipeline1 ∧
    recognizedJobState JOB_RUNNING ∧
    (∃ ps' js' j', UpdateJobState pstore1 jstore0 jobStarting0 JOB_RUNNING "r" 7
        = .ok ps' js' j' ∧
      ∃ p', ps' jobStarting0.pipelineName = some p' ∧
        ∃ jc', p'.jobCounts = some jc' ∧
          (∀ k, lookupCount jc' k =
            lookupCount (pipeline1.jobCounts.getD []) k
              + (if k = JOB_RUNNING then 1 else 0)
              - (if k = jobStarting0.state ∧
                    lookupCount (pipeline1.jobCounts.getD []) jobStarting0.state ≠ 0
                 then 1 else 0)) ∧
          sumCounts jc' =
            (if lookupCount (pipeline1.jobCounts.getD []) jobStarting0.state = 0
             then sumCounts (pipeline1.jobCounts.getD []) + 1
             else sumCounts (pipeline1.jobCounts.getD []))) :=
  ⟨by decide, by decide, by decide,
    updateJobState_counts_amended pstore1 jstore0 jobStarting0 JOB_RUNNING "r" 7 pipeline1
      (by decide) (by decide) (by decide)⟩

/-- Counterexample to claim C7 as stated: a job already in the terminal
state `JOB_SUCCESS`, whose `finished` timestamp is already set (to 5), is
driven through a further `UpdateJobState` to `JOB_KILLED`; the call
commits and overwrites `finished` with the new clock reading 9, so the
`finished` timestamp is not set exactly once on the first entry into a
terminal state. -/
theorem updateJobState_finished_overwritten_cx :
    (jobAfter (UpdateJobState pstore0 jstore0 jobSuccess0 JOB_KILLED "" 9)).map
        (fun j => j.finished) = some (some 9) ∧
    jobSuccess0.finished = some 5 ∧
    IsTerminal jobSuccess0.state = some true ∧
    some (9 : Int) ≠ some (5 : Int) := by
  decide

/-- Claim C7 (amended): a committed `UpdateJobState` sets the job's
`started` timestamp on every transition whose new state is
`JOB_STARTING` and sets `finished` on every transition into a terminal
state (`SUCCESS`, `FAILURE`, `KILLED`) — overwriting any previously set
value on repeated such transitions — and leaves both timestamps
unchanged on transitions to the other states. -/
theorem updateJobState_timestamps_amended
    (ps : PStore) (js : JStore) (j : EtcdJobInfo) (s : Int) (r : String) (now : Int)
    (p : EtcdPipelineInfo)
    (h1 : j.state ≠ JOB_FAILURE) (h2 : ps j.pipelineName = some p)
    (h3 : recognizedJobState s) :
    ∃ ps' js' j', UpdateJobState ps js j s r now = .ok ps' js' j' ∧
      j'.started = (if s = JOB_STARTING then some now else j.started) ∧
      j'.finished = (if s = JOB_SUCCESS ∨ s = JOB_FAILURE ∨ s = JOB_KILLED
        then some now else j.finished) := by
  obtain ⟨j', heq, hs, hf, -⟩ := updateJobState_ok_shape ps js j s r now p h1 h2 h3
  exact ⟨_, _, j', heq, hs, hf⟩

/-- Witness for the amended C7 at concrete inputs: the `STARTING`
transition stamps `started`. -/
theorem updateJobState_timestamps_amended_witness :
    jobStarting0.state ≠ JOB_FAILURE ∧
    recognizedJobState JOB_STARTING ∧
    (∃ ps' js' j', UpdateJobState pstore0 jstore0 jobStarting0 JOB_STARTING "r" 7
        = .ok ps' js' j' ∧
      j'.started = (if JOB_STARTING = JOB_STARTING then some 7 else jobStarting0.started) ∧
      j'.finished = (if JOB_STARTING = JOB_SUCCESS ∨ JOB_STARTING = JOB_FAILURE ∨
          JOB_STARTING = JOB_KILLED then some 7 else jobStarting0.finished)) :=
  ⟨by decide, by decide,
    updateJobState_timestamps_amended pstore0 jstore0 jobStarting0 JOB_STARTING "r" 7
      pipeline0 (by decide) (by decide) (by decide)⟩

/-- Claim C9: with a new state outside the six recognized `JobState`
values, a job not already in `JOB_FAILURE` and a present pipeline record,
`UpdateJobState` reaches the `default:` branch of `IsTerminal` and
panics; it does not return an error. -/
theorem updateJobState_unrecognized_panics
    (ps : PStore) (js : JStore) (j : EtcdJobInfo) (s : Int) (r : String) (now : Int)
    (p : EtcdPipelineInfo)
    (h1 : ¬recognizedJobState s) (h2 : j.state ≠ JOB_FAILURE)
    (h3 : ps j.pipelineName = some p) :
    ∃ ps', UpdateJobState ps js j s r now = .panicked ps' js ∧
      ∀ e ps'' js'', UpdateJobState ps js j s r now ≠ .err e ps'' js'' := by
  unfold recognizedJobState at h1
  push_neg at h1
  obtain ⟨n0, n1, n2, n3, n4, n5⟩ := h1
  have hterm : IsTerminal s = none := by
    simp [IsTerminal, JOB_STARTING, JOB_RUNNING, JOB_FAILURE, JOB_SUCCESS, JOB_KILLED,
      JOB_MERGING, n0, n1, n2, n3, n4, n5]
  have hs0 : ¬s = JOB_STARTING := by simpa [JOB_STARTING] using n0
  refine ⟨putP ps j.pipelineName
      { p with jobCounts := some (bumpCounts (p.jobCounts.getD []) j.state s),
               lastJobState := s }, ?_, ?_⟩
  · simp [UpdateJobState, h2, h3, hs0, hterm]
  · intro e ps'' js''
    simp [UpdateJobState, h2, h3, hs0, hterm]

/-- Witness for C9 at the concrete unrecognized state 6. -/
theorem updateJobState_unrecognized_panics_witness :
    ¬recognizedJobState 6 ∧
    jobStarting0.state ≠ JOB_FAILURE ∧
    (∃ ps', UpdateJobState pstore0 jstore0 jobStarting0 6 "r" 0 = .panicked ps' jstore0 ∧
      ∀ e ps'' js'', UpdateJobState pstore0 jstore0 jobStarting0 6 "r" 0
        ≠ .err e ps'' js'') :=
  ⟨by decide, by decide,
    updateJobState_unrecognized_panics pstore0 jstore0 jobStarting0 6 "r" 0 pipeline0
      (by decide) (by decide) (by decide)⟩

/-- Claim C10: `UpdateJobState` commits on a pipeline record whose
`jobCounts` map is absent (nil): the missing map reads as empty, every
count is zero so the floored decrement is skipped, and the new state's
count is incremented to 1 — the written map is exactly
`[(newState, 1)]`. -/
theorem updateJobState_nil_jobCounts
    (ps : PStore) (js : JStore) (j : EtcdJobInfo) (s : Int) (r : String) (now : Int)
    (p : EtcdPipelineInfo)
    (h1 : j.state ≠ JOB_FAILURE) (h2 : ps j.pipelineName = some p)
    (h3 : p.jobCounts = none) (h4 : recognizedJobState s) :
    ∃ ps' js' j', UpdateJobState ps js j s r now = .ok ps' js' j' ∧
      ∃ p', ps' j.pipelineName = some p' ∧ p'.jobCounts = some [(s, 1)] := by
  obtain ⟨j', heq, -⟩ := updateJobState_ok_shape ps js j s r now p h1 h2 h4
  refine ⟨_, _, j', heq,
    { p with jobCounts := some (bumpCounts (p.jobCounts.getD []) j.state s),
             lastJobState := s },
    by simp [putP], ?_⟩
  simp [h3, bumpCounts, lookupCount, lookupA, setA]

/-- Witness for C10 at concrete inputs: pipeline record with
`jobCounts = none`, transition to `JOB_RUNNING`. -/
theorem updateJobState_nil_jobCounts_witness :
    jobStarting0.state ≠ JOB_FAILURE ∧
    pipelineNilCounts.jobCounts = none ∧
    recognizedJobState JOB_RUNNING ∧
    (∃ ps' js' j', UpdateJobState pstoreNil jstore0 jobStarting0 JOB_RUNNING "r" 0
        = .ok ps' js' j' ∧
      ∃ p', ps' jobStarting0.pipelineName = some p' ∧
        p'.jobCounts = some [(JOB_RUNNING, 1)]) :=
  ⟨by decide, by decide, by decide,
    updateJobState_nil_jobCounts pstoreNil jstore0 jobStarting0 JOB_RUNNING "r" 0
      pipelineNilCounts (by decide) (by decide) (by decide) (by decide)⟩

/-- Claim C8: `FailPipeline` fails with the collection's not-found error
when the pipeline record is absent; otherwise it rewrites the record with
only `state := PIPELINE_FAILURE` and the new `reason` (all other fields,
`jobCounts` included, kept), touches no other pipeline record and no job
record, and a second call on the same pipeline succeeds again, leaving
`state = PIPELINE_FAILURE` with the updated reason. -/
theorem failPipeline_spec (ps : PStore) (js : JStore) (name r r2 : String) :
    (ps name = none → FailPipeline ps js name r = .error .notFound) ∧
    (∀ p, ps name = some p →
      ∃ ps', FailPipeline ps js name r = .ok (ps', js) ∧
        ps' name = some { p with state := PIPELINE_FAILURE, reason := r } ∧
        (∀ m, m ≠ name → ps' m = ps m) ∧
        ∃ ps'', FailPipeline ps' js name r2 = .ok (ps'', js) ∧
          ps'' name = some { p with state := PIPELINE_FAILURE, reason := r2 } ∧
          (∀ m, m ≠ name → ps'' m = ps m)) := by
  constructor
  · intro h
    simp [FailPipeline, h]
  · intro p hp
    refine ⟨putP ps name { p with state := PIPELINE_FAILURE, reason := r },
      by simp [FailPipeline, hp], by simp [putP], fun m hm => by simp [putP, hm],
      putP (putP ps name { p with state := PIPELINE_FAILURE, reason := r }) name
        { p with state := PIPELINE_FAILURE, reason := r2 },
      ?_, by simp [putP], fun m hm => by simp [putP, hm]⟩
    simp [FailPipeline, putP]

/-- Witness for C8 at concrete inputs: a missing pipeline name is
rejected, an existing one is failed and failed again idempotently. -/
theorem failPipeline_spec_witness :
    pstore0 "q" = none ∧
    FailPipeline pstore0 jstore0 "q" "a" = .error .notFound ∧
    pstore0 "p" = some pipeline0 ∧
    (∃ ps', FailPipeline pstore0 jstore0 "p" "a" = .ok (ps', jstore0) ∧
      ps' "p" = some { pipeline0 with state := PIPELINE_FAILURE, reason := "a" } ∧
      (∀ m, m ≠ "p" → ps' m = pstore0 m) ∧
      ∃ ps'', FailPipeline ps' jstore0 "p" "b" = .ok (ps'', jstore0) ∧
        ps'' "p" = some { pipeline0 with state := PIPELINE_FAILURE, reason := "b" } ∧
        (∀ m, m ≠ "p" → ps'' m = pstore0 m)) :=
  ⟨by decide, (failPipeline_spec pstore0 jstore0 "q" "a" "b").1 (by decide), by decide,
    (failPipeline_spec pstore0 jstore0 "p" "a" "b").2 pipeline0 (by decide)⟩

/-- Claim C3: `GetExpectedNumWorkers` returns 1 for a nil spec or when
constant and coefficient are both zero; returns exactly `constant` when
`constant > 0` and `coefficient == 0`; returns
`max(1, floor(coefficient * nodeCount))` when `constant == 0` and
`coefficient > 0`, failing with the cluster-unavailable error when the
node set cannot be obtained or is empty; and fails with the
invalid-parallelism-spec error for every other combination, in
particular when both are positive. -/
theorem getExpectedNumWorkers_cases (nodeItems : Option (List Unit)) :
    (GetExpectedNumWorkers nodeItems none = .ok 1) ∧
    (∀ sp : ParallelismSpec, sp.constant = 0 → sp.coefficient = 0 →
      GetExpectedNumWorkers nodeItems (some sp) = .ok 1) ∧
    (∀ sp : ParallelismSpec, 0 < sp.constant → sp.coefficient = 0 →
      GetExpectedNumWorkers nodeItems (some sp) = .ok sp.constant) ∧
    (∀ sp : ParallelismSpec, ∀ n, sp.constant = 0 → 0 < sp.coefficient →
      getNumNodes nodeItems = .ok n →
      GetExpectedNumWorkers nodeItems (some sp)
        = .ok (Int.toNat (max (Int.floor (sp.coefficient * n)) 1))) ∧
    ((nodeItems = none ∨ nodeItems = some []) →
      getNumNodes nodeItems = .error .clusterUnavailable) ∧
    (∀ sp : ParallelismSpec, sp.constant = 0 → 0 < sp.coefficient →
      getNumNodes nodeItems = .error .clusterUnavailable →
      GetExpectedNumWorkers nodeItems (some sp) = .error .clusterUnavailable) ∧
    (∀ sp : ParallelismSpec,
      ¬(sp.constant = 0 ∧ sp.coefficient = 0) →
      ¬(0 < sp.constant ∧ sp.coefficient = 0) →
      ¬(sp.constant = 0 ∧ 0 < sp.coefficient) →
      GetExpectedNumWorkers nodeItems (some sp) = .error .invalidParallelismSpec) := by
  refine ⟨rfl, ?_, ?_, ?_, ?_, ?_, ?_⟩
  · intro sp hc hk
    simp [GetExpectedNumWorkers, hc, hk]
  · intro sp hc hk
    simp [GetExpectedNumWorkers, hc, hk, Nat.pos_iff_ne_zero.mp hc]
  · intro sp n hc hk hn
    simp [GetExpectedNumWorkers, hc, hk, hn, ne_of_gt hk]
  · rintro (h | h) <;> simp [getNumNodes, h]
  · intro sp hc hk hn
    simp [GetExpectedNumWorkers, hc, hk, hn, ne_of_gt hk]
  · intro sp h00 hc0 h0c
    simp only [GetExpectedNumWorkers, if_neg h00, if_neg hc0, if_neg h0c]

/-- Witness for C3 at concrete inputs: both-zero spec, constant-only
spec, coefficient-only spec over a three-node cluster
(`max(1, floor(1/2 * 3)) = 1`), unreachable cluster, and a both-positive
spec. -/
theorem getExpectedNumWorkers_cases_witness :
    (GetExpectedNumWorkers (some [(), (), ()]) (some ⟨0, 0⟩) = .ok 1) ∧
    (GetExpectedNumWorkers (some [(), (), ()]) (some ⟨5, 0⟩) = .ok 5) ∧
    (GetExpectedNumWorkers (some [(), (), ()]) (some ⟨0, 1/2⟩)
      = .ok (Int.toNat (max (Int.floor ((1/2 : ℚ) * (3 : Nat))) 1))) ∧
    (GetExpectedNumWorkers none (some ⟨0, 1/2⟩) = .error .clusterUnavailable) ∧
    (GetExpectedNumWorkers (some [(), (), ()]) (some ⟨5, 1/2⟩)
      = .error .invalidParallelismSpec) :=
  ⟨(getExpectedNumWorkers_cases (some [(), (), ()])).2.1 ⟨0, 0⟩ (by decide) (by decide),
    (getExpectedNumWorkers_cases (some [(), (), ()])).2.2.1 ⟨5, 0⟩ (by decide) (by decide),
    (getExpectedNumWorkers_cases (some [(), (), ()])).2.2.2.1 ⟨0, 1/2⟩ 3 (by decide)
      (by norm_num) (by rfl),
    (getExpectedNumWorkers_cases none).2.2.2.2.2.1 ⟨0, 1/2⟩ (by decide) (by norm_num)
      (by rfl),
    (getExpectedNumWorkers_cases (some [(), (), ()])).2.2.2.2.2.2 ⟨5, 1/2⟩ (by norm_num)
      (by norm_num) (by norm_num)⟩

/-- Counterexample to claim C4 as stated: the memory string fails to
parse, yet the returned list still carries a "memory" entry, because the
gpu field's caller-chosen type string is "memory" and its entry is
written last; the failed field's entry is not simply omitted. -/
theorem getResourceList_failed_field_entry_cx :
    (getOk (getResourceListFromSpec parseQ0 fmtF0 fmtI0 rspecMemGpu "x")).map
        (fun l => l "memory") = some (some 7) ∧
    parseQ0 rspecMemGpu.memory = none ∧
    (some (7 : Int) ≠ (none : Option Int)) := by
  decide

/-- Claim C4 (amended): `getResourceListFromSpec` always succeeds — a
per-field quantity parse failure is never surfaced as an error of the
call — and a field whose quantity fails to parse contributes no entry:
its key is absent from the result unless another field writes that same
key (the cache-size rule can install a memory entry even when the memory
string failed to parse, and the gpu entry is written last under the
caller-chosen gpu type string, which may equal another field's key). -/
theorem getResourceList_per_field (parseQuantity : String → Option Int)
    (formatFloat : ℚ → String) (formatInt : Int → String)
    (resources : ResourceSpec) (cacheSize : String) :
    ∃ l, getResourceListFromSpec parseQuantity formatFloat formatInt resources cacheSize
        = .ok l ∧
      (parseQuantity (formatFloat resources.cpu) = none →
        gpuHits parseQuantity formatInt resources "cpu" = false →
        l "cpu" = none) ∧
      (parseQuantity resources.memory = none →
        cacheHits parseQuantity resources cacheSize = false →
        gpuHits parseQuantity formatInt resources "memory" = false →
        l "memory" = none) ∧
      (parseQuantity resources.disk = none →
        gpuHits parseQuantity formatInt resources "ephemeral-storage" = false →
        l "ephemeral-storage" = none) ∧
      (∀ g, resources.gpu = some g → parseQuantity (formatInt g.number) = none →
        g.type ≠ "cpu" → g.type ≠ "memory" → g.type ≠ "ephemeral-storage" →
        l g.type = none) := by
  refine ⟨_, rfl, ?_, ?_, ?_, ?_⟩
  · intro hcpu hgpu
    rcases hg : resources.gpu with _ | g
    · rcases hmem : parseQuantity resources.memory with _ | mq <;>
        rcases hcache : parseQuantity cacheSize with _ | cq <;>
          by_cases hde : resources.disk = "" <;>
            rcases hdisk : parseQuantity resources.disk with _ | dq <;>
              simp_all [setR, ite_apply]
    · rcases hgq : parseQuantity (formatInt g.number) with _ | gq
      · rcases hmem : parseQuantity resources.memory with _ | mq <;>
          rcases hcache : parseQuantity cacheSize with _ | cq <;>
            by_cases hde : resources.disk = "" <;>
              rcases hdisk : parseQuantity resources.disk with _ | dq <;>
                simp_all [setR, ite_apply]
      · have hne : ¬g.type = "cpu" := by simp_all [gpuHits]
        have hne' : ¬("cpu" = g.type) := fun hh => hne hh.symm
        rcases hmem : parseQuantity resources.memory with _ | mq <;>
          rcases hcache : parseQuantity cacheSize with _ | cq <;>
            by_cases hde : resources.disk = "" <;>
              rcases hdisk : parseQuantity resources.disk with _ | dq <;>
                simp_all [setR, ite_apply]
  · intro hmem hcache hgpu
    rcases hg : resources.gpu with _ | g
    · rcases hcpu : parseQuantity (formatFloat resources.cpu) with _ | cpuq <;>
        rcases hc : parseQuantity cacheSize with _ | cq <;>
          by_cases hde : resources.disk = "" <;>
            rcases hdisk : parseQuantity resources.disk with _ | dq <;>
              simp_all [cacheHits, setR, ite_apply]
    · rcases hgq : parseQuantity (formatInt g.number) with _ | gq
      · rcases hcpu : parseQuantity (formatFloat resources.cpu) with _ | cpuq <;>
          rcases hc : parseQuantity cacheSize with _ | cq <;>
            by_cases hde : resources.disk = "" <;>
              rcases hdisk : parseQuantity resources.disk with _ | dq <;>
                simp_all [cacheHits, setR, ite_apply]
      · have hne : ¬g.type = "memory" := by simp_all [gpuHits]
        have hne' : ¬("memory" = g.type) := fun hh => hne hh.symm
        rcases hcpu : parseQuantity (formatFloat resources.cpu) with _ | cpuq <;>
          rcases hc : parseQuantity cacheSize with _ | cq <;>
            by_cases hde : resources.disk = "" <;>
              rcases hdisk : parseQuantity resources.disk with _ | dq <;>
                simp_all [cacheHits, setR, ite_apply]
  · intro hdisk hgpu
    rcases hg : resources.gpu with _ | g
    · rcases hcpu : parseQuantity (formatFloat resources.cpu) with _ | cpuq <;>
        rcases hmem : parseQuantity resources.memory with _ | mq <;>
          rcases hc : parseQuantity cacheSize with _ | cq <;>
            by_cases hde : resources.disk = "" <;>
              simp_all [setR, ite_apply]
    · rcases hgq : parseQuantity (formatInt g.number) with _ | gq
      · rcases hcpu : parseQuantity (formatFloat resources.cpu) with _ | cpuq <;>
          rcases hmem : parseQuantity resources.memory with _ | mq <;>
            rcases hc : parseQuantity cacheSize with _ | cq <;>
              by_cases hde : resources.disk = "" <;>
                simp_all [setR, ite_apply]
      · have hne : ¬g.type = "ephemeral-storage" := by simp_all [gpuHits]
        have hne' : ¬("ephemeral-storage" = g.type) := fun hh => hne hh.symm
        rcases hcpu : parseQuantity (formatFloat resources.cpu) with _ | cpuq <;>
          rcases hmem : parseQuantity resources.memory with _ | mq <;>
            rcases hc : parseQuantity cacheSize with _ | cq <;>
              by_cases hde : resources.disk = "" <;>
                simp_all [setR, ite_apply]
  · intro g hg hgq ht1 ht2 ht3
    have ht1' : ¬(g.type = "cpu") := ht1
    have h1 : ¬("cpu" = g.type) := fun hh => ht1 hh.symm
    have h2 : ¬("memory" = g.type) := fun hh => ht2 hh.symm
    have h3 : ¬("ephemeral-storage" = g.type) := fun hh => ht3 hh.symm
    rcases hcpu : parseQuantity (formatFloat resources.cpu) with _ | cpuq <;>
      rcases hmem : parseQuantity resources.memory with _ | mq <;>
        rcases hc : parseQuantity cacheSize with _ | cq <;>
          by_cases hde : resources.disk = "" <;>
            rcases hdisk : parseQuantity resources.disk with _ | dq <;>
              simp_all [setR, ite_apply]

/-- Witness for the amended C4 at concrete inputs: unparseable memory
string, no gpu — the call succeeds and the result has no memory entry. -/
theorem getResourceList_per_field_witness :
    parseQ0 rspecPlain.memory = none ∧
    cacheHits parseQ0 rspecPlain "x" = false ∧
    gpuHits parseQ0 fmtI0 rspecPlain "memory" = false ∧
    (∃ l, getResourceListFromSpec parseQ0 fmtF0 fmtI0 rspecPlain "x" = .ok l ∧
      l "memory" = none) := by
  obtain ⟨l, hok, -, hm, -, -⟩ := getResourceList_per_field parseQ0 fmtF0 fmtI0 rspecPlain "x"
  exact ⟨by decide, by decide, by decide, l, hok, hm (by decide) (by decide) (by decide)⟩

/-- Counterexample to claim C5 as stated: memory parses to 1, cache-size
to 3 > 1, so the claim predicts a memory entry of 3; but the gpu field's
type string is "memory" and its quantity 7 is written last, so the
returned memory entry is 7, not the cache-size quantity. -/
theorem getResourceList_memory_gpu_overwrite_cx :
    (getOk (getResourceListFromSpec parseQ0 fmtF0 fmtI0 rspecCacheGpu "3")).map
        (fun l => l "memory") = some (some 7) ∧
    parseQ0 "3" = some 3 ∧
    parseQ0 rspecCacheGpu.memory = some 1 ∧
    ((1 : Int) < 3) ∧
    (some (7 : Int) ≠ some (3 : Int)) := by
  decide

/-- Claim C5 (amended): provided the gpu field does not write the
"memory" key (gpu absent, gpu quantity unparseable, or gpu type another
string), whenever the cache-size string parses to a quantity strictly
greater than the parsed memory quantity (the Go zero quantity 0 when the
memory string fails to parse), the returned memory entry equals the
cache-size quantity; otherwise the memory entry equals the memory
field's parse result (present exactly when the memory string parses). -/
theorem getResourceList_memory_cache (parseQuantity : String → Option Int)
    (formatFloat : ℚ → String) (formatInt : Int → String)
    (resources : ResourceSpec) (cacheSize : String) :
    ∃ l, getResourceListFromSpec parseQuantity formatFloat formatInt resources cacheSize
        = .ok l ∧
      (gpuHits parseQuantity formatInt resources "memory" = false →
        (∀ c, parseQuantity cacheSize = some c →
          (parseQuantity resources.memory).getD 0 < c → l "memory" = some c) ∧
        (cacheHits parseQuantity resources cacheSize = false →
          l "memory" = parseQuantity resources.memory)) := by
  refine ⟨_, rfl, ?_⟩
  intro hgpu
  constructor
  · intro c hc hlt
    rcases hg : resources.gpu with _ | g
    · rcases hcpu : parseQuantity (formatFloat resources.cpu) with _ | cpuq <;>
        rcases hmem : parseQuantity resources.memory with _ | mq <;>
          by_cases hde : resources.disk = "" <;>
            rcases hdisk : parseQuantity resources.disk with _ | dq <;>
              simp_all [setR, ite_apply]
    · rcases hgq : parseQuantity (formatInt g.number) with _ | gq
      · rcases hcpu : parseQuantity (formatFloat resources.cpu) with _ | cpuq <;>
          rcases hmem : parseQuantity resources.memory with _ | mq <;>
            by_cases hde : resources.disk = "" <;>
              rcases hdisk : parseQuantity resources.disk with _ | dq <;>
                simp_all [setR, ite_apply]
      · have hne : ¬g.type = "memory" := by simp_all [gpuHits]
        have hne' : ¬("memory" = g.type) := fun hh => hne hh.symm
        rcases hcpu : parseQuantity (formatFloat resources.cpu) with _ | cpuq <;>
          rcases hmem : parseQuantity resources.memory with _ | mq <;>
            by_cases hde : resources.disk = "" <;>
              rcases hdisk : parseQuantity resources.disk with _ | dq <;>
                simp_all [setR, ite_apply]
  · intro hch
    rcases hg : resources.gpu with _ | g
    · rcases hcpu : parseQuantity (formatFloat resources.cpu) with _ | cpuq <;>
        rcases hmem : parseQuantity resources.memory with _ | mq <;>
          rcases hc : parseQuantity cacheSize with _ | cq <;>
            by_cases hde : resources.disk = "" <;>
              rcases hdisk : parseQuantity resources.disk with _ | dq <;>
                simp_all [cacheHits, setR, ite_apply]
    · rcases hgq : parseQuantity (formatInt g.number) with _ | gq
      · rcases hcpu : parseQuantity (formatFloat resources.cpu) with _ | cpuq <;>
          rcases hmem : parseQuantity resources.memory with _ | mq <;>
            rcases hc : parseQuantity cacheSize with _ | cq <;>
              by_cases hde : resources.disk = "" <;>
                rcases hdisk : parseQuantity resources.disk with _ | dq <;>
                  simp_all [cacheHits, setR, ite_apply]
      · have hne : ¬g.type = "memory" := by simp_all [gpuHits]
        have hne' : ¬("memory" = g.type) := fun hh => hne hh.symm
        rcases hcpu : parseQuantity (formatFloat resources.cpu) with _ | cpuq <;>
          rcases hmem : parseQuantity resources.memory with _ | mq <;>
            rcases hc : parseQuantity cacheSize with _ | cq <;>
              by_cases hde : resources.disk = "" <;>
                rcases hdisk : parseQuantity resources.disk with _ | dq <;>
                  simp_all [cacheHits, setR, ite_apply]

/-- Witness for the amended C5 at concrete inputs: memory 1, cache 3,
no gpu — the memory entry is raised to the cache quantity 3. -/
theorem getResourceList_memory_cache_witness :
    gpuHits parseQ0 fmtI0 rspecCache "memory" = false ∧
    parseQ0 "3" = some 3 ∧
    ((parseQ0 rspecCache.memory).getD 0 < 3) ∧
    (∃ l, getResourceListFromSpec parseQ0 fmtF0 fmtI0 rspecCache "3" = .ok l ∧
      l "memory" = some 3) := by
  obtain ⟨l, hok, h⟩ := getResourceList_memory_cache parseQ0 fmtF0 fmtI0 rspecCache "3"
  exact ⟨by decide, by decide, by decide, l, hok,
    (h (by decide)).1 3 (by decide) (by decide)⟩

/-- Folding provenance entries into the index and reading key `k` finds
the last matching entry (Go map assignment is last-write-wins), falling
back to the initial map. -/
theorem lookupA_foldl_setA (provenance : List CommitProvenance)
    (init : List (String × Commit)) (k : String) :
    lookupA (provenance.foldl (fun m prov =>
        setA m (provKey prov.commit.repo.name prov.branch.name) prov.commit) init) k =
      match provenance.reverse.find? (fun prov =>
          decide (provKey prov.commit.repo.name prov.branch.name = k)) with
      | some prov => some prov.commit
      | none => lookupA init k := by
  induction provenance generalizing init with
  | nil => simp
  | cons prov rest ih =>
    simp only [List.foldl_cons, List.reverse_cons, List.find?_append, ih]
    cases hfind : rest.reverse.find? (fun p =>
        decide (provKey p.commit.repo.name p.branch.name = k)) with
    | some p => simp
    | none =>
      by_cases hp : provKey prov.commit.repo.name prov.branch.name = k
      · simp [List.find?, hp, lookupA_setA]
      · have hp' : ¬(k = provKey prov.commit.repo.name prov.branch.name) :=
          fun hh => hp hh.symm
        simp [List.find?, hp, hp', lookupA_setA]

/-- Reading the built `branchToCommit` index is exactly `provLookup`. -/
theorem lookupA_branchToCommit (provenance : List CommitProvenance) (k : String) :
    lookupA (branchToCommit provenance) k = provLookup provenance k := by
  unfold branchToCommit provLookup
  rw [lookupA_foldl_setA]
  cases hfind : provenance.reverse.find? (fun prov =>
      decide (provKey prov.commit.repo.name prov.branch.name = k)) <;> simp [lookupA]

/-- Claim C6: `JobInput` resolves every leaf of the copied input tree
against the index built from the output commit's provenance: a pfs leaf
takes the commit id found under `(repo, branch)`, a cron leaf the one
under `(repo, "master")` regardless of its declared branch field, a git
leaf the one under `(name, branch)`; a leaf whose key has no provenance
entry keeps its unresolved commit field, and the cross/union operators
are traversed structurally. -/
theorem jobInput_resolves_leaves (provenance : List CommitProvenance) :
    (∀ repo branch commit, JobInput (.pfs repo branch commit) provenance
      = .pfs repo branch
          ((provLookup provenance (provKey repo branch)).elim commit (fun c => c.id))) ∧
    (∀ repo branch commit, JobInput (.cron repo branch commit) provenance
      = .cron repo branch
          ((provLookup provenance (provKey repo "master")).elim commit (fun c => c.id))) ∧
    (∀ name branch commit, JobInput (.git name branch commit) provenance
      = .git name branch
          ((provLookup provenance (provKey name branch)).elim commit (fun c => c.id))) ∧
    (∀ inputs, JobInput (.cross inputs) provenance
      = .cross (inputs.map (fun i => JobInput i provenance))) ∧
    (∀ inputs, JobInput (.union inputs) provenance
      = .union (inputs.map (fun i => JobInput i provenance))) := by
  refine ⟨?_, ?_, ?_, ?_, ?_⟩
  · intro repo branch commit
    simp only [JobInput, resolveInput, lookupA_branchToCommit]
    cases provLookup provenance (provKey repo branch) <;> simp
  · intro repo branch commit
    simp only [JobInput, resolveInput, lookupA_branchToCommit]
    cases provLookup provenance (provKey repo "master") <;> simp
  · intro name branch commit
    simp only [JobInput, resolveInput, lookupA_branchToCommit]
    cases provLookup provenance (provKey name branch) <;> simp
  · intro inputs
    simp only [JobInput, resolveInput]
    congr 1
    induction inputs with
    | nil => simp [resolveInputs]
    | cons i is ih => simp [resolveInputs, ih]
  · intro inputs
    simp only [JobInput, resolveInput]
    congr 1
    induction inputs with
    | nil => simp [resolveInputs]
    | cons i is ih => simp [resolveInputs, ih]

end PPS
